import Mathlib

/-!
# Verification of the PokerOdds core (`src/cards.rs`)

This file gives a shallow embedding of the Rust source `src/cards.rs` and
proves or refutes the frozen specification claims about it.

Modelling conventions:
* Rust `u8` card values are modelled as `Nat` (the construction bound 2..=14
  keeps real card values far from the `u8` range; where `u8` overflow matters,
  namely the frequency counters, arithmetic is taken modulo 256).
* Rust panics (out-of-bounds indexing / slicing) are modelled by `Option`:
  a function returns `none` exactly when the Rust original panics.
* `slice::sort_by` is a stable sort; it is modelled by `List.insertionSort`
  (also stable) keyed on the card value.
* `HashMap<Hand, u8>` is modelled as an association list `List (Hand × Nat)`
  with at most one entry per key; iteration order of a `HashMap` is
  unspecified, so the list order is a representation choice that no theorem
  depends on.
-/

/-- Suit of a playing card: `Suit`, from `enum Suit` in the source. -/
inductive Suit where
  | Spades
  | Diamonds
  | Clubs
  | Hearts
deriving DecidableEq, Repr

/-- Card, from the source's `struct Card` with fields `suit: Suit` and `value: u8`. -/
structure Card where
  suit : Suit
  value : Nat
deriving DecidableEq, Repr

/-- The error message `Card::build` returns for an out-of-range value
(the source's `InvalidRank` condition). -/
def invalidRankMsg : String := "Value must be between 2 (Two) and 14 (Ace)"

/-- Build a card, `Card::build`: succeeds iff `(2..=14).contains(&value)`. -/
def Card.build (suit : Suit) (value : Nat) : Except String Card :=
  if ¬(2 ≤ value ∧ value ≤ 14) then
    .error invalidRankMsg
  else
    .ok { suit := suit, value := value }

/-- Hand category, `enum Hand` from the source: the ten hand categories with their
tie-break payloads. -/
inductive Hand where
  | HighCard (r : Nat)
  | Pair (r : Nat)
  | TwoPair (hi lo : Nat)
  | ThreeOfAKind (r : Nat)
  | Straight (highCard : Nat)
  | Flush (highCard : Nat)
  | FullHouse (trips pair : Nat)
  | FourOfAKind (r : Nat)
  | StraightFlush (highCard : Nat)
  | RoyalFlush
deriving DecidableEq, Repr

/-- Helper `fn is_all_same_value(values: &[u8]) -> bool`:
`values.iter().all(|x| *x == values[0])` (vacuously true on `[]`,
where the closure - and hence `values[0]` - is never evaluated). -/
def is_all_same_value (values : List Nat) : Bool :=
  match values with
  | [] => true
  | x :: _ => values.all (fun y => y == x)

/-- The consecutive-run test of the straight check:
`values.windows(2).position(|w| w[0] + 1 != w[1])` is `None`. -/
def consecutive_b : List Nat → Bool
  | [] => true
  | [_] => true
  | a :: b :: rest => (a + 1 == b) && consecutive_b (b :: rest)

/-- Straight check `is_straight` from `get_best_hand`: the sorted values are exactly the
wheel `[2,3,4,5,14]`, or every adjacent pair is consecutive. -/
def is_straight_b (values : List Nat) : Bool :=
  values == [2, 3, 4, 5, 14] || consecutive_b values

/-- Flush check `is_flush` from `get_best_hand`:
`suits.iter().position(|x| *x != suits[0])` is `None`, i.e. every suit
equals the first one (vacuously true on `[]`). -/
def is_flush_b : List Suit → Bool
  | [] => true
  | s :: rest => rest.all (fun x => x == s)

/-- Window check `values.windows(4).any(|w| is_all_same_value(w))`. -/
def window4_all_same : List Nat → Bool
  | a :: b :: c :: d :: rest =>
      (b == a && c == a && d == a) || window4_all_same (b :: c :: d :: rest)
  | _ => false

/-- Window check `values.windows(3).any(|w| is_all_same_value(w))`. -/
def window3_all_same : List Nat → Bool
  | a :: b :: c :: rest =>
      (b == a && c == a) || window3_all_same (b :: c :: rest)
  | _ => false

/-- Pair search `values.windows(2).position(|w| w[0] == w[1])` mapped to `values[index]`:
the first element of the first adjacent equal pair (the source's `pair`). -/
def first_pair_value : List Nat → Option Nat
  | a :: b :: rest => if a == b then some a else first_pair_value (b :: rest)
  | _ => none

/-- Rust slice `&l[a..b]`: defined iff `a ≤ b ≤ l.len()`, otherwise a panic
(modelled as `none`). -/
def slice? (l : List Nat) (a b : Nat) : Option (List Nat) :=
  if a ≤ b ∧ b ≤ l.length then some ((l.drop a).take (b - a)) else none

/-- The `(is_four, quads)` computation of `get_best_hand`:
on a window-of-4 match the payload is `values[2]`. -/
def four_info (values : List Nat) : Option (Bool × Option Nat) :=
  if window4_all_same values then do
    let q ← values.get? 2
    pure (true, some q)
  else
    pure (false, none)

/-- Second arm of the full-house check:
`is_all_same_value(&values[..3]) && is_all_same_value(&values[3..])`,
payload `(Some(values[0]), Some(values[4]))`. -/
def full_house_branch2 (values : List Nat) : Option (Bool × Option Nat × Option Nat) := do
  let s03 ← slice? values 0 3
  if is_all_same_value s03 then do
    let s3e ← slice? values 3 values.length
    if is_all_same_value s3e then do
      let v0 ← values.get? 0
      let v4 ← values.get? 4
      pure (true, some v0, some v4)
    else
      pure (false, none, none)
  else
    pure (false, none, none)

/-- The `(is_full_house, full_house_trips, full_house_pair)` computation:
first arm `is_all_same_value(&values[..2]) && is_all_same_value(&values[2..])`
with payload `(Some(values[4]), Some(values[0]))`, else the second arm.
Short-circuit `&&` means the right slice is only formed when the left
conjunct holds. -/
def full_house_info (values : List Nat) : Option (Bool × Option Nat × Option Nat) := do
  let s01 ← slice? values 0 2
  if is_all_same_value s01 then do
    let s2e ← slice? values 2 values.length
    if is_all_same_value s2e then do
      let v4 ← values.get? 4
      let v0 ← values.get? 0
      pure (true, some v4, some v0)
    else
      full_house_branch2 values
  else
    full_house_branch2 values

/-- The `(is_three, three_trips)` computation, payload `values[2]`. -/
def three_info (values : List Nat) : Option (Bool × Option Nat) :=
  if window3_all_same values then do
    let t ← values.get? 2
    pure (true, some t)
  else
    pure (false, none)

/-- Third arm of the two-pair check:
`is_all_same_value(&values[1..3]) && is_all_same_value(&values[3..])`. -/
def two_pair_branch3 (values : List Nat) : Option (Bool × Option Nat × Option Nat) := do
  let s13 ← slice? values 1 3
  if is_all_same_value s13 then do
    let s3e ← slice? values 3 values.length
    if is_all_same_value s3e then do
      let v1 ← values.get? 1
      let v3 ← values.get? 3
      pure (true, some (max v1 v3), some (min v1 v3))
    else
      pure (false, none, none)
  else
    pure (false, none, none)

/-- Second arm of the two-pair check:
`is_all_same_value(&values[..2]) && is_all_same_value(&values[3..])`. -/
def two_pair_branch2 (values : List Nat) : Option (Bool × Option Nat × Option Nat) := do
  let s01 ← slice? values 0 2
  if is_all_same_value s01 then do
    let s3e ← slice? values 3 values.length
    if is_all_same_value s3e then do
      let v0 ← values.get? 0
      let v3 ← values.get? 3
      pure (true, some (max v0 v3), some (min v0 v3))
    else
      two_pair_branch3 values
  else
    two_pair_branch3 values

/-- The `(is_two_pair, high_pair, low_pair)` computation: first arm
`is_all_same_value(&values[..2]) && is_all_same_value(&values[2..4])`,
then the second and third arms. -/
def two_pair_info (values : List Nat) : Option (Bool × Option Nat × Option Nat) := do
  let s01 ← slice? values 0 2
  if is_all_same_value s01 then do
    let s24 ← slice? values 2 4
    if is_all_same_value s24 then do
      let v0 ← values.get? 0
      let v2 ← values.get? 2
      pure (true, some (max v0 v2), some (min v0 v2))
    else
      two_pair_branch2 values
  else
    two_pair_branch2 values

/-- The body of `get_best_hand` after sorting: all detections run on the
sorted value sequence, plus the flush flag computed from the suits.
`high_card = hand[4].value` (panics - `none` - on fewer than 5 cards),
then the top-down resolution chain. The `Option` threading reproduces the
source's panic points (slice bounds, `values[i]`, `unwrap`). -/
def classify_sorted_values (values : List Nat) (is_flush : Bool) : Option Hand := do
  let is_straight := is_straight_b values
  let four ← four_info values
  let fullHouse ← full_house_info values
  let three ← three_info values
  let twoPair ← two_pair_info values
  let pairVal := first_pair_value values
  let high_card ← values.get? 4
  if is_straight && is_flush && high_card == 14 then
    pure Hand.RoyalFlush
  else if is_straight && is_flush then
    pure (Hand.StraightFlush high_card)
  else if four.1 then do
    let q ← four.2
    pure (Hand.FourOfAKind q)
  else if fullHouse.1 then do
    let t ← fullHouse.2.1
    let p ← fullHouse.2.2
    pure (Hand.FullHouse t p)
  else if is_flush then
    pure (Hand.Flush high_card)
  else if is_straight then
    pure (Hand.Straight high_card)
  else if three.1 then do
    let t ← three.2
    pure (Hand.ThreeOfAKind t)
  else if twoPair.1 then do
    let hp ← twoPair.2.1
    let lp ← twoPair.2.2
    pure (Hand.TwoPair hp lp)
  else if pairVal.isSome then do
    let p ← pairVal
    pure (Hand.Pair p)
  else
    pure (Hand.HighCard high_card)

/-- Sorting step `hand.sort_by(|a, b| a.value.partial_cmp(&b.value).unwrap())`:
a stable ascending sort keyed on the card value. -/
def sort_by_value (hand : List Card) : List Card :=
  hand.insertionSort (fun a b => a.value ≤ b.value)

/-- Classifier `fn get_best_hand(hand: &[Card]) -> Hand`: copy, sort by value, extract
the value and suit sequences, run the detections and the resolution chain.
`none` models a panic (which happens for inputs of fewer than 5 cards). -/
def get_best_hand (hand : List Card) : Option Hand :=
  let sorted := sort_by_value hand
  let values := sorted.map Card.value
  let suits := sorted.map Card.suit
  classify_sorted_values values (is_flush_b suits)





/-- Game state `struct Game`: hole cards, flop, optional turn, optional river. -/
structure Game where
  hole : Card × Card
  flop : Card × Card × Card
  turn : Option Card
  river : Option Card

/-- Hole cards as a vector, `self.hole.to_vec()`. -/
def Game.holeList (g : Game) : List Card := [g.hole.1, g.hole.2]

/-- Flop cards as a vector, `self.flop.to_vec()`. -/
def Game.flopList (g : Game) : List Card := [g.flop.1, g.flop.2.1, g.flop.2.2]

/-- A frequency table: `HashMap<Hand, u8>` modelled as an association list
with `Nat` counts kept below 256 by the mod-256 increment. -/
abbrev Table := List (Hand × Nat)

/-- Lookup of a key in a table (`HashMap::get`). -/
def Table.lookup (t : Table) (h : Hand) : Option Nat :=
  match t with
  | [] => none
  | (k, c) :: rest => if k = h then some c else Table.lookup rest h

/-- Increment `frequencies.entry(h).and_modify(|c| *c += 1).or_insert(1)`:
the counter is a `u8`, so the increment is taken modulo 256. -/
def Table.incr (t : Table) (h : Hand) : Table :=
  match t with
  | [] => [(h, 1)]
  | (k, c) :: rest => if k = h then (k, (c + 1) % 256) :: rest else (k, c) :: Table.incr rest h

/-- Overwriting insert `frequencies.insert(h, 1)` (used once, in the `Hole + Flop` case). -/
def Table.insert1 (t : Table) (h : Hand) : Table :=
  match t with
  | [] => [(h, 1)]
  | (k, c) :: rest => if k = h then (k, 1) :: rest else (k, c) :: Table.insert1 rest h

/-- Update step `fn update_frequencies`: classify the hand and bump its counter.
`none` models a panic inside `get_best_hand`. -/
def update_frequencies (hand : List Card) (frequencies : Table) : Option Table :=
  (get_best_hand hand).map (fun best_hand => frequencies.incr best_hand)

/-- All `k`-element combinations of a list, in the lexicographic-by-position
order produced by `itertools::Itertools::combinations(k)`. -/
def combinations : Nat → List α → List (List α)
  | 0, _ => [[]]
  | _ + 1, [] => []
  | k + 1, x :: xs => (combinations k xs).map (fun c => x :: c) ++ combinations (k + 1) xs

/-- Enumeration step `fn update_frequencies_with_unused_cards`: complete `hand` to 5 cards
with every combination of the unused cards. -/
def Game.update_frequencies_with_unused_cards (_g : Game) (hand unused_cards : List Card)
    (frequencies : Table) : Option Table :=
  let remaining_length := 5 - hand.length
  (combinations remaining_length unused_cards).foldlM
    (fun fr final_cards => update_frequencies (hand ++ final_cards) fr) frequencies

/-- Enumeration step `fn update_frequencies_from_starting_cards` (the older engine's helper):
extend the starting cards with whichever of turn/river are present, then
evaluate directly when 5 cards are reached, otherwise enumerate the unused
cards when the remaining count fits under `max_unused_cards`. -/
def Game.update_frequencies_from_starting_cards (g : Game) (starting_cards unused_cards : List Card)
    (max_unused_cards : Nat) (frequencies : Table) : Option Table :=
  let remaining_length := 5 - starting_cards.length
  let hand := starting_cards
  if remaining_length == 0 then
    update_frequencies hand frequencies
  else
    match g.turn with
    | some turn =>
      let hand := hand ++ [turn]
      let remaining_length := remaining_length - 1
      if remaining_length == 0 then
        update_frequencies hand frequencies
      else
        match g.river with
        | some river =>
          let remaining_length := remaining_length - 1
          if remaining_length == 0 then
            update_frequencies (hand ++ [river]) frequencies
          else if remaining_length ≤ max_unused_cards then
            g.update_frequencies_with_unused_cards hand unused_cards frequencies
          else
            pure frequencies
        | none =>
          if remaining_length ≤ max_unused_cards then
            g.update_frequencies_with_unused_cards hand unused_cards frequencies
          else
            pure frequencies
    | none =>
      if remaining_length ≤ max_unused_cards then
        g.update_frequencies_with_unused_cards hand unused_cards frequencies
      else
        pure frequencies

/-- Used cards `fn get_used_cards`: hole cards, then flop, then turn and river when
present. There is no perspective parameter: the hole cards are always
included. -/
def Game.get_used_cards (g : Game) : List Card :=
  g.holeList ++ g.flopList
    ++ (match g.turn with | some turn => [turn] | none => [])
    ++ (match g.river with | some river => [river] | none => [])

/-- The 52-card deck in the order generated by `get_unused_cards`'s loops:
`for suit in [Spades, Diamonds, Clubs, Hearts] { for value in 2..=14 }`.
`Card::build(suit, value).unwrap()` always succeeds on this range, so the
card is constructed directly. -/
def full_deck : List Card :=
  [Suit.Spades, Suit.Diamonds, Suit.Clubs, Suit.Hearts].flatMap
    (fun s => (List.range' 2 13).map (fun v => { suit := s, value := v }))

/-- Unused cards `fn get_unused_cards`: every deck card not contained in `used_cards`,
in deck order. -/
def Game.get_unused_cards (_g : Game) (used_cards : List Card) : List Card :=
  full_deck.filter (fun c => !(used_cards.contains c))

/-- Older engine `fn get_best_hand_frequenicies` (the older engine, kept under its
misspelled source name): builds both tables through
`update_frequencies_from_starting_cards`. -/
def Game.get_best_hand_frequenicies (g : Game) : Option (Table × Table) := do
  let used_cards := g.get_used_cards
  let unused_cards := g.get_unused_cards used_cards
  let my0 ← g.update_frequencies_from_starting_cards g.holeList unused_cards 2 []
  let my1 ← g.holeList.foldlM
    (fun fr hole_card => g.update_frequencies_from_starting_cards [hole_card] unused_cards 2 fr) my0
  let their0 ← g.update_frequencies_from_starting_cards g.flopList unused_cards 2 []
  let their1 ← (combinations 2 g.flopList).foldlM
    (fun fr starting_cards =>
      g.update_frequencies_from_starting_cards starting_cards unused_cards 3 fr) their0
  let their2 ← g.flopList.foldlM
    (fun fr flop_card => g.update_frequencies_from_starting_cards [flop_card] unused_cards 4 fr) their1
  pure (my1, their2)

/-- Current engine `fn get_best_hand_frequencies` (the current engine): a faithful
transcription of its eight enumeration blocks, in source order. `none`
models a panic anywhere inside. Note the source's `hand` vectors in the
`Hole + 2 of Flop`, `Hole + 1 of Flop` and `1 of Hole + 2 of Flop` blocks
are extended inside their loops without being reset, which the folds below
reproduce by threading the growing `hand`. -/
def Game.get_best_hand_frequencies (g : Game) : Option (Table × Table) := do
  let used_cards := g.holeList ++ g.flopList
    ++ (match g.turn with | some turn => [turn] | none => [])
    ++ (match g.river with | some river => [river] | none => [])
  let unused_cards := g.get_unused_cards used_cards
  -- Hole + Flop
  let hand := g.holeList ++ g.flopList
  let best_hand ← get_best_hand hand
  let my0 : Table := Table.insert1 [] best_hand
  -- Hole + 2 of Flop
  let step2 ← (combinations 2 g.flopList).foldlM
    (fun (acc : List Card × Table) two_of_flop => do
      let hand := acc.1 ++ two_of_flop
      let freqs := acc.2
      let freqs ← match g.turn with
        | some turn => update_frequencies (hand ++ [turn]) freqs
        | none => pure freqs
      let freqs ← match g.river with
        | some river => update_frequencies (hand ++ [river]) freqs
        | none => pure freqs
      let freqs ← if g.turn.isNone && g.river.isNone then
          unused_cards.foldlM
            (fun fr final_card => update_frequencies (hand ++ [final_card]) fr) freqs
        else pure freqs
      pure (hand, freqs)) (g.holeList, my0)
  -- Hole + 1 of Flop
  let step3 ← g.flopList.foldlM
    (fun (acc : List Card × Table) one_of_flop => do
      let hand := acc.1 ++ [one_of_flop]
      let freqs := acc.2
      let freqs ← match g.turn with
        | some turn =>
          let turn_hand := hand ++ [turn]
          match g.river with
          | some river => update_frequencies (turn_hand ++ [river]) freqs
          | none =>
            unused_cards.foldlM
              (fun fr final_card => update_frequencies (turn_hand ++ [final_card]) fr) freqs
        | none => pure freqs
      let freqs ← if g.turn.isNone && g.river.isNone then
          (combinations 2 unused_cards).foldlM
            (fun fr final_two_cards => update_frequencies (hand ++ final_two_cards) fr) freqs
        else pure freqs
      pure (hand, freqs)) (g.holeList, step2.2)
  -- 1 of Hole + Flop
  let my3 ← g.holeList.foldlM
    (fun freqs hole_card => do
      let hand := hole_card :: g.flopList
      let freqs ← match g.turn with
        | some turn => update_frequencies (hand ++ [turn]) freqs
        | none => pure freqs
      let freqs ← match g.river with
        | some river => update_frequencies (hand ++ [river]) freqs
        | none => pure freqs
      if g.turn.isNone && g.river.isNone then
        unused_cards.foldlM
          (fun fr final_card => update_frequencies (hand ++ [final_card]) fr) freqs
      else pure freqs) step3.2
  -- 1 of Hole + 2 of Flop
  let my4 ← g.holeList.foldlM
    (fun freqs hole_card => do
      let hand := [hole_card]
      let freqs ← match g.turn with
        | some turn =>
          let turn_hand := hand ++ [turn]
          match g.river with
          | some river => update_frequencies (turn_hand ++ [river]) freqs
          | none => pure freqs
        | none => pure freqs
      if g.turn.isNone && g.river.isNone then do
        let acc ← (combinations 2 g.flopList).foldlM
          (fun (acc : List Card × Table) two_of_flop => do
            let hand := acc.1 ++ two_of_flop
            let fr ← (combinations 2 unused_cards).foldlM
              (fun fr final_two_cards => update_frequencies (hand ++ final_two_cards) fr) acc.2
            pure (hand, fr)) (hand, freqs)
        pure acc.2
      else pure freqs) my3
  -- 3 of Flop
  let hand6 := g.flopList
  let their1 ← match g.turn with
    | some turn => do
      let turn_hand := hand6 ++ [turn]
      let t ← match g.river with
        | some river => update_frequencies (turn_hand ++ [river]) ([] : Table)
        | none => pure ([] : Table)
      unused_cards.foldlM
        (fun fr final_card => update_frequencies (turn_hand ++ [final_card]) fr) t
    | none => pure ([] : Table)
  let their2 ← match g.river with
    | some river => do
      let river_hand := hand6 ++ [river]
      unused_cards.foldlM
        (fun fr final_card => update_frequencies (river_hand ++ [final_card]) fr) their1
    | none => pure their1
  let their3 ← (combinations 2 unused_cards).foldlM
    (fun fr final_two_cards => update_frequencies (hand6 ++ final_two_cards) fr) their2
  -- 2 of Flop
  let their4 ← (combinations 2 g.flopList).foldlM
    (fun freqs two_of_flop => do
      let hand := two_of_flop
      let freqs ← match g.turn with
        | some turn => do
          let turn_hand := hand ++ [turn]
          let freqs ← match g.river with
            | some river => do
              let turn_river_hand := turn_hand ++ [river]
              unused_cards.foldlM
                (fun fr final_card => update_frequencies (turn_river_hand ++ [final_card]) fr) freqs
            | none => pure freqs
          (combinations 2 unused_cards).foldlM
            (fun fr final_two_cards => update_frequencies (turn_hand ++ final_two_cards) fr) freqs
        | none => pure freqs
      match g.river with
        | some river => do
          let river_hand := hand ++ [river]
          (combinations 2 unused_cards).foldlM
            (fun fr final_two_cards => update_frequencies (river_hand ++ final_two_cards) fr) freqs
        | none => pure freqs) their3
  -- 1 of Flop
  let their5 ← g.flopList.foldlM
    (fun freqs one_of_flop =>
      match g.turn, g.river with
      | some turn, some river =>
        let hand := [one_of_flop, turn, river]
        (combinations 2 unused_cards).foldlM
          (fun fr final_two_cards => update_frequencies (hand ++ final_two_cards) fr) freqs
      | _, _ => pure freqs) their4
  pure (my4, their5)

/-- The value sequence extracted from the sorted hand
(`values` in `get_best_hand`). -/
def sorted_values (hand : List Card) : List Nat :=
  (sort_by_value hand).map Card.value

/-- The suit sequence extracted from the sorted hand
(`suits` in `get_best_hand`). -/
def sorted_suits (hand : List Card) : List Suit :=
  (sort_by_value hand).map Card.suit

/-- The full-house condition of the source, written with `take`/`drop`
(for 5 sorted values this is exactly
`(values[..2] all equal and values[2..] all equal) or
(values[..3] all equal and values[3..] all equal)`). -/
def is_full_house_b (values : List Nat) : Bool :=
  (is_all_same_value (values.take 2) && is_all_same_value (values.drop 2)) ||
  (is_all_same_value (values.take 3) && is_all_same_value (values.drop 3))

/-- The two-pair condition of the source, written with `take`/`drop`:
the three adjacency patterns `(0,1)&(2,3)`, `(0,1)&(3,4)`, `(1,2)&(3,4)`. -/
def is_two_pair_b (values : List Nat) : Bool :=
  (is_all_same_value (values.take 2) && is_all_same_value ((values.drop 2).take 2)) ||
  (is_all_same_value (values.take 2) && is_all_same_value (values.drop 3)) ||
  (is_all_same_value ((values.drop 1).take 2) && is_all_same_value (values.drop 3))

/-- The pair condition: some adjacent equal pair exists. -/
def has_pair_b (values : List Nat) : Bool :=
  (first_pair_value values).isSome

/-- Index `values[4]` for a 5-card hand - the high card of the sorted hand. -/
def high_card_of (values : List Nat) : Nat :=
  values.getD 4 0

/-- The ten category predicates of the resolution chain, in the source's
top-down order (RoyalFlush first, the catch-all HighCard last). -/
def spec_predicates (values : List Nat) (is_flush : Bool) : List Bool :=
  [ is_straight_b values && is_flush && (high_card_of values == 14),
    is_straight_b values && is_flush,
    window4_all_same values,
    is_full_house_b values,
    is_flush,
    is_straight_b values,
    window3_all_same values,
    is_two_pair_b values,
    has_pair_b values,
    true ]

/-- The position of a category in the resolution order (0 = RoyalFlush,
..., 9 = HighCard). -/
def category_index : Hand → Nat
  | .RoyalFlush => 0
  | .StraightFlush _ => 1
  | .FourOfAKind _ => 2
  | .FullHouse _ _ => 3
  | .Flush _ => 4
  | .Straight _ => 5
  | .ThreeOfAKind _ => 6
  | .TwoPair _ _ => 7
  | .Pair _ => 8
  | .HighCard _ => 9

/-- Concrete full game state (hole, flop, turn and river all present)
used to exhibit the engine's panic for claim C1. -/
def gFullA : Game :=
  { hole := (⟨Suit.Spades, 14⟩, ⟨Suit.Spades, 13⟩)
    flop := (⟨Suit.Spades, 12⟩, ⟨Suit.Spades, 11⟩, ⟨Suit.Spades, 10⟩)
    turn := some ⟨Suit.Spades, 9⟩
    river := some ⟨Suit.Spades, 8⟩ }

/-- Concrete full game state used to exhibit the engine's panic for
claim C7. -/
def gFullB : Game :=
  { hole := (⟨Suit.Hearts, 2⟩, ⟨Suit.Diamonds, 3⟩)
    flop := (⟨Suit.Clubs, 4⟩, ⟨Suit.Spades, 5⟩, ⟨Suit.Hearts, 6⟩)
    turn := some ⟨Suit.Diamonds, 7⟩
    river := some ⟨Suit.Clubs, 8⟩ }

/-- Concrete flop-only game state (the fixture of the source's
`test_get_used_and_unused_cards`). -/
def gFlopOnly : Game :=
  { hole := (⟨Suit.Diamonds, 12⟩, ⟨Suit.Clubs, 11⟩)
    flop := (⟨Suit.Spades, 10⟩, ⟨Suit.Hearts, 8⟩, ⟨Suit.Clubs, 3⟩)
    turn := none
    river := none }

/-- Concrete game state with turn and river present, used as witness
input for the used/unused theorems. -/
def gFullW : Game :=
  { hole := (⟨Suit.Diamonds, 12⟩, ⟨Suit.Clubs, 11⟩)
    flop := (⟨Suit.Spades, 10⟩, ⟨Suit.Hearts, 8⟩, ⟨Suit.Clubs, 3⟩)
    turn := some ⟨Suit.Hearts, 4⟩
    river := some ⟨Suit.Diamonds, 9⟩ }

instance : IsTotal Card (fun a b => a.value ≤ b.value) :=
  ⟨fun a b => Nat.le_total a.value b.value⟩

instance : IsTrans Card (fun a b => a.value ≤ b.value) :=
  ⟨fun _ _ _ => Nat.le_trans⟩

theorem sort_by_value_perm (l : List Card) : (sort_by_value l).Perm l :=
  List.perm_insertionSort _ l

theorem sorted_values_sorted (l : List Card) : (sorted_values l).Sorted (· ≤ ·) := by
  have h := List.sorted_insertionSort (fun a b : Card => a.value ≤ b.value) l
  rw [sorted_values, sort_by_value, List.Sorted, List.pairwise_map]
  exact h

theorem sorted_values_perm (l : List Card) : (sorted_values l).Perm (l.map Card.value) :=
  (sort_by_value_perm l).map Card.value

theorem sorted_values_eq_of_perm {l : List Card} {m : List Nat}
    (hp : (l.map Card.value).Perm m) (hs : m.Sorted (· ≤ ·)) :
    sorted_values l = m :=
  List.eq_of_perm_of_sorted ((sorted_values_perm l).trans hp) (sorted_values_sorted l) hs

theorem get_best_hand_eq (h : List Card) :
    get_best_hand h = classify_sorted_values (sorted_values h) (is_flush_b (sorted_suits h)) := rfl

/-- C2 amended: wheel gives RoyalFlush when suited else Straight 14. -/
theorem wheel_classification (h : List Card)
    (hw : (h.map Card.value).Perm [2, 3, 4, 5, 14]) :
    get_best_hand h =
      some (if is_flush_b (sorted_suits h) then Hand.RoyalFlush else Hand.Straight 14) := by
  have hv : sorted_values h = [2, 3, 4, 5, 14] :=
    sorted_values_eq_of_perm hw (by decide)
  rw [get_best_hand_eq, hv]
  cases hfl : is_flush_b (sorted_suits h) <;> rfl

theorem is_flush_b_iff (l : List Suit) :
    is_flush_b l = true ↔ ∀ x ∈ l, ∀ y ∈ l, x = y := by
  cases l with
  | nil => simp [is_flush_b]
  | cons s rest =>
    simp only [is_flush_b, List.all_eq_true, beq_iff_eq]
    constructor
    · intro hall x hx y hy
      have hx' : x = s := by
        rcases List.mem_cons.mp hx with h | h
        · exact h
        · exact hall x h
      have hy' : y = s := by
        rcases List.mem_cons.mp hy with h | h
        · exact h
        · exact hall y h
      rw [hx', hy']
    · intro hall x hx
      exact hall x (List.mem_cons_of_mem s hx) s (List.mem_cons_self s rest)

theorem is_flush_b_perm {l m : List Suit} (hp : l.Perm m) :
    is_flush_b l = is_flush_b m := by
  rw [Bool.eq_iff_iff, is_flush_b_iff, is_flush_b_iff]
  constructor
  · intro hall x hx y hy
    exact hall x (hp.mem_iff.mpr hx) y (hp.mem_iff.mpr hy)
  · intro hall x hx y hy
    exact hall x (hp.mem_iff.mp hx) y (hp.mem_iff.mp hy)

theorem sorted_suits_perm (l : List Card) : (sorted_suits l).Perm (l.map Card.suit) :=
  (sort_by_value_perm l).map Card.suit

/-- C8: classification is invariant to the input order of the 5 cards. -/
theorem get_best_hand_perm_invariant (h h' : List Card)
    (_hlen : h.length = 5) (hp : h.Perm h') :
    get_best_hand h = get_best_hand h' := by
  have hv : sorted_values h = sorted_values h' :=
    List.eq_of_perm_of_sorted
      ((sorted_values_perm h).trans ((hp.map Card.value).trans (sorted_values_perm h').symm))
      (sorted_values_sorted h) (sorted_values_sorted h')
  have hf : is_flush_b (sorted_suits h) = is_flush_b (sorted_suits h') :=
    is_flush_b_perm
      ((sorted_suits_perm h).trans ((hp.map Card.suit).trans (sorted_suits_perm h').symm))
  rw [get_best_hand_eq, get_best_hand_eq, hv, hf]

theorem get_best_hand_perm_invariant_witness :
    (([⟨Suit.Hearts, 8⟩, ⟨Suit.Clubs, 3⟩, ⟨Suit.Hearts, 3⟩, ⟨Suit.Diamonds, 8⟩,
        ⟨Suit.Spades, 8⟩] : List Card).length = 5) ∧
    get_best_hand
        [⟨Suit.Hearts, 8⟩, ⟨Suit.Clubs, 3⟩, ⟨Suit.Hearts, 3⟩, ⟨Suit.Diamonds, 8⟩,
          ⟨Suit.Spades, 8⟩] =
      get_best_hand
        [⟨Suit.Spades, 8⟩, ⟨Suit.Diamonds, 8⟩, ⟨Suit.Hearts, 3⟩, ⟨Suit.Clubs, 3⟩,
          ⟨Suit.Hearts, 8⟩] :=
  ⟨by decide,
    get_best_hand_perm_invariant _ _ (by decide) (by decide)⟩

/-- C2 counterexample. -/
theorem wheel_counterexample :
    get_best_hand
        [⟨Suit.Diamonds, 2⟩, ⟨Suit.Diamonds, 3⟩, ⟨Suit.Diamonds, 4⟩, ⟨Suit.Diamonds, 5⟩,
          ⟨Suit.Diamonds, 14⟩] = some Hand.RoyalFlush ∧
    get_best_hand
        [⟨Suit.Diamonds, 2⟩, ⟨Suit.Hearts, 14⟩, ⟨Suit.Spades, 3⟩, ⟨Suit.Diamonds, 5⟩,
          ⟨Suit.Diamonds, 4⟩] = some (Hand.Straight 14) := by
  constructor <;> rfl

theorem wheel_classification_witness :
    (([⟨Suit.Diamonds, 2⟩, ⟨Suit.Hearts, 14⟩, ⟨Suit.Spades, 3⟩, ⟨Suit.Diamonds, 5⟩,
        ⟨Suit.Diamonds, 4⟩] : List Card).map Card.value).Perm [2, 3, 4, 5, 14] ∧
    get_best_hand
        [⟨Suit.Diamonds, 2⟩, ⟨Suit.Hearts, 14⟩, ⟨Suit.Spades, 3⟩, ⟨Suit.Diamonds, 5⟩,
          ⟨Suit.Diamonds, 4⟩] =
      some (if is_flush_b (sorted_suits
          [⟨Suit.Diamonds, 2⟩, ⟨Suit.Hearts, 14⟩, ⟨Suit.Spades, 3⟩, ⟨Suit.Diamonds, 5⟩,
            ⟨Suit.Diamonds, 4⟩]) then Hand.RoyalFlush else Hand.Straight 14) :=
  ⟨by decide, wheel_classification _ (by decide)⟩

/-- C5: `Card::build` succeeds iff the value is in `[2, 14]`. -/
theorem card_build_characterization (s : Suit) (v : Nat) :
    (Card.build s v = Except.ok { suit := s, value := v } ↔ 2 ≤ v ∧ v ≤ 14) ∧
    (¬(2 ≤ v ∧ v ≤ 14) → Card.build s v = Except.error invalidRankMsg) ∧
    (∀ c, Card.build s v = Except.ok c → c = { suit := s, value := v }) := by
  by_cases h : 2 ≤ v ∧ v ≤ 14 <;> simp [Card.build, h]

theorem card_build_characterization_witness :
    (Card.build Suit.Spades 7 = Except.ok { suit := Suit.Spades, value := 7 }) ∧
    Card.build Suit.Hearts 15 = Except.error invalidRankMsg :=
  ⟨(card_build_characterization Suit.Spades 7).1.mpr (by decide),
    (card_build_characterization Suit.Hearts 15).2.1 (by decide)⟩

/-- C3 counterexample: the used set (the only one, there is no perspective
parameter) contains the hole card, and the unused set - from which the
opponent table's completions are also drawn - excludes it. -/
theorem used_cards_perspective_counterexample :
    gFlopOnly.hole.1 ∈ gFlopOnly.get_used_cards ∧
    gFlopOnly.hole.1 ∉ gFlopOnly.get_unused_cards gFlopOnly.get_used_cards := by
  constructor
  · decide
  · decide

/-- C3 amended: the used set contains hole, flop and present turn/river for
both perspectives, and every used card is excluded from the unused set. -/
theorem used_cards_always_include_hole (g : Game) :
    g.hole.1 ∈ g.get_used_cards ∧ g.hole.2 ∈ g.get_used_cards ∧
    g.flop.1 ∈ g.get_used_cards ∧ g.flop.2.1 ∈ g.get_used_cards ∧
    g.flop.2.2 ∈ g.get_used_cards ∧
    (∀ t, g.turn = some t → t ∈ g.get_used_cards) ∧
    (∀ r, g.river = some r → r ∈ g.get_used_cards) ∧
    (∀ c ∈ g.get_used_cards, c ∉ g.get_unused_cards g.get_used_cards) := by
  refine ⟨?_, ?_, ?_, ?_, ?_, ?_, ?_, ?_⟩
  · simp [Game.get_used_cards, Game.holeList]
  · simp [Game.get_used_cards, Game.holeList]
  · simp [Game.get_used_cards, Game.holeList, Game.flopList]
  · simp [Game.get_used_cards, Game.holeList, Game.flopList]
  · simp [Game.get_used_cards, Game.holeList, Game.flopList]
  · intro t ht
    simp [Game.get_used_cards, ht]
  · intro r hr
    simp [Game.get_used_cards, hr]
  · intro c hc hmem
    rw [Game.get_unused_cards, List.mem_filter] at hmem
    have h2 := hmem.2
    simp only [Bool.not_eq_true', List.contains_eq_any_beq, List.any_eq_false] at h2
    exact (h2 c hc) (by simp)

theorem used_cards_always_include_hole_witness :
    ((⟨Suit.Hearts, 4⟩ : Card) ∈ gFullW.get_used_cards) ∧
    gFullW.hole.1 ∈ gFullW.get_used_cards :=
  ⟨(used_cards_always_include_hole gFullW).2.2.2.2.2.1 _ rfl,
    (used_cards_always_include_hole gFullW).1⟩

theorem mem_full_deck (c : Card) : c ∈ full_deck ↔ 2 ≤ c.value ∧ c.value ≤ 14 := by
  obtain ⟨s, v⟩ := c
  show { suit := s, value := v } ∈ full_deck ↔ 2 ≤ v ∧ v ≤ 14
  constructor
  · intro h
    rw [full_deck, List.mem_flatMap] at h
    obtain ⟨s', _, h⟩ := h
    rw [List.mem_map] at h
    obtain ⟨w, hw, heq⟩ := h
    rw [List.mem_range'] at hw
    obtain ⟨i, hi, rfl⟩ := hw
    rw [Card.mk.injEq] at heq
    obtain ⟨-, h2⟩ := heq
    omega
  · rintro ⟨h2, h14⟩
    rw [full_deck, List.mem_flatMap]
    refine ⟨s, ?_, ?_⟩
    · cases s <;> simp
    · rw [List.mem_map]
      refine ⟨v, ?_, rfl⟩
      rw [List.mem_range']
      exact ⟨v - 2, by omega, by omega⟩

theorem full_deck_nodup : full_deck.Nodup := by decide

theorem full_deck_length : full_deck.length = 52 := by decide

/-- C4: used and unused cards are disjoint and partition the 52-card deck. -/
theorem used_unused_partition (g : Game)
    (hnd : g.get_used_cards.Nodup)
    (hval : ∀ c ∈ g.get_used_cards, 2 ≤ c.value ∧ c.value ≤ 14) :
    (∀ c, ¬(c ∈ g.get_used_cards ∧ c ∈ g.get_unused_cards g.get_used_cards)) ∧
    (g.get_used_cards ++ g.get_unused_cards g.get_used_cards).Perm full_deck ∧
    g.get_used_cards.length + (g.get_unused_cards g.get_used_cards).length = 52 := by
  set used := g.get_used_cards with hused
  have hdisj : ∀ c, ¬(c ∈ used ∧ c ∈ g.get_unused_cards used) := by
    intro c ⟨hc, hcu⟩
    rw [Game.get_unused_cards, List.mem_filter] at hcu
    have h2 := hcu.2
    simp only [Bool.not_eq_true', List.contains_eq_any_beq, List.any_eq_false] at h2
    exact (h2 c hc) (by simp)
  have hsub : ∀ c ∈ used, c ∈ full_deck := fun c hc => (mem_full_deck c).mpr (hval c hc)
  have hfilter : (full_deck.filter (fun c => used.contains c)).Perm used := by
    rw [List.perm_ext_iff_of_nodup (full_deck_nodup.filter _) hnd]
    intro a
    rw [List.mem_filter]
    constructor
    · rintro ⟨-, ha⟩
      simpa using ha
    · intro ha
      exact ⟨hsub a ha, by simpa using ha⟩
  have hperm : (used ++ g.get_unused_cards used).Perm full_deck := by
    have hsplit := List.filter_append_perm (fun c => used.contains c) full_deck
    exact (hfilter.symm.append_right _).trans hsplit
  exact ⟨hdisj, hperm, by
    have := hperm.length_eq
    rwa [List.length_append, full_deck_length] at this⟩

theorem used_unused_partition_witness :
    gFullW.get_used_cards.Nodup ∧
    (∀ c ∈ gFullW.get_used_cards, 2 ≤ c.value ∧ c.value ≤ 14) ∧
    gFullW.get_used_cards.length + (gFullW.get_unused_cards gFullW.get_used_cards).length = 52 :=
  ⟨by decide, by decide,
    (used_unused_partition gFullW (by decide) (by decide)).2.2⟩

/-- C1: on the concrete full state `gFullA` the current engine panics
(models as `none`): in the `1 of Hole + 2 of Flop` block it classifies the
3-card vector `[hole.0, turn, river]` and `get_best_hand` indexes `hand[4]`.
On the flop-only fixture the older engine's Self pass contributes no hand
at all (the remaining count 3 exceeds its `max_unused_cards` bound 2), so
its Self table is empty instead of carrying the single count `C(47,0) = 1`. -/
theorem engine_violates_enumeration_total :
    gFullA.get_best_hand_frequencies = none ∧
    gFlopOnly.update_frequencies_from_starting_cards gFlopOnly.holeList
      (gFlopOnly.get_unused_cards gFlopOnly.get_used_cards) 2 [] = some [] := by
  constructor
  · rfl
  · rfl

/-- C7: with turn and river both present the engine does not return a
single-entry table - it panics (models as `none`). -/
theorem engine_panics_on_full_state :
    gFullB.get_best_hand_frequencies = none := by
  rfl

theorem lookup_incr (t : Table) (h k : Hand) :
    (t.incr h).lookup k =
      if k = h then
        match t.lookup k with
        | some c => some ((c + 1) % 256)
        | none => some 1
      else t.lookup k := by
  induction t with
  | nil =>
    by_cases hk : k = h
    · subst hk
      simp [Table.incr, Table.lookup]
    · simp [Table.incr, Table.lookup, hk, Ne.symm hk]
  | cons p rest ih =>
    obtain ⟨k', c⟩ := p
    by_cases h1 : k' = h
    · subst h1
      by_cases h2 : k' = k
      · subst h2
        simp [Table.incr, Table.lookup]
      · have h3 : ¬(k = k') := fun he => h2 he.symm
        simp [Table.incr, Table.lookup, h2, h3]
    · by_cases h2 : k' = k
      · subst h2
        simp [Table.incr, Table.lookup, h1]
      · simp [Table.incr, Table.lookup, h1, h2, ih]

theorem foldl_incr_lookup (hs : List Hand) :
    ∀ (t : Table) (h : Hand),
      (hs.foldl Table.incr t).lookup h =
        match t.lookup h with
        | some c => if hs.count h = 0 then some c else some ((c + hs.count h) % 256)
        | none => if hs.count h = 0 then none else some (hs.count h % 256) := by
  induction hs with
  | nil =>
    intro t h
    cases hc : t.lookup h <;> simp [hc]
  | cons h' rest ih =>
    intro t h
    rw [List.foldl_cons, ih (t.incr h') h]
    by_cases hh : h = h'
    · subst hh
      rw [List.count_cons_self]
      have hne' : rest.count h + 1 ≠ 0 := by omega
      cases hc : t.lookup h with
      | some c =>
        have hstep : (t.incr h).lookup h = some ((c + 1) % 256) := by
          rw [lookup_incr, if_pos rfl, hc]
        rw [hstep]
        rcases Nat.eq_zero_or_pos (rest.count h) with h0 | hpos
        · simp [h0]
        · have hne : rest.count h ≠ 0 := by omega
          simp only [if_neg hne, if_neg hne']
          congr 1
          omega
      | none =>
        have hstep : (t.incr h).lookup h = some 1 := by
          rw [lookup_incr, if_pos rfl, hc]
        rw [hstep]
        rcases Nat.eq_zero_or_pos (rest.count h) with h0 | hpos
        · simp [h0]
        · have hne : rest.count h ≠ 0 := by omega
          simp only [if_neg hne, if_neg hne']
          congr 1
          omega
    · rw [List.count_cons_of_ne hh, lookup_incr, if_neg hh]

/-- C9: a per-category counter is a `u8`, so after `n` occurrences of a
category the stored count is `n % 256`: at most 255, and different from
the true count as soon as that count exceeds 255. -/
theorem counter_wraps_mod_256 (hs : List Hand) (h : Hand) (hmem : h ∈ hs) :
    (hs.foldl Table.incr ([] : Table)).lookup h = some (hs.count h % 256) ∧
    hs.count h % 256 ≤ 255 ∧
    (255 < hs.count h → hs.count h % 256 ≠ hs.count h) := by
  have hne : hs.count h ≠ 0 := by
    have := List.count_pos_iff.mpr hmem
    omega
  have h256 : hs.count h % 256 < 256 := Nat.mod_lt _ (by omega)
  refine ⟨?_, by omega, by omega⟩
  rw [foldl_incr_lookup hs [] h]
  simp [Table.lookup, hne]

theorem counter_wraps_mod_256_witness :
    (Hand.Pair 2 ∈ List.replicate 300 (Hand.Pair 2)) ∧
    ((List.replicate 300 (Hand.Pair 2)).foldl Table.incr ([] : Table)).lookup (Hand.Pair 2) =
      some ((List.replicate 300 (Hand.Pair 2)).count (Hand.Pair 2) % 256) :=
  ⟨by decide, (counter_wraps_mod_256 _ _ (by decide)).1⟩

theorem is_all_same_two (x y : Nat) : is_all_same_value [x, y] = decide (x = y) := by
  by_cases h : x = y
  · subst h
    simp [is_all_same_value]
  · rw [decide_eq_false h]
    simp [is_all_same_value, beq_iff_eq, Ne.symm h]

theorem is_all_same_three (x y z : Nat) :
    is_all_same_value [x, y, z] = (decide (x = y) && decide (y = z)) := by
  by_cases h1 : x = y
  · subst h1
    by_cases h2 : x = z
    · subst h2
      simp [is_all_same_value]
    · rw [decide_eq_false h2]
      simp [is_all_same_value, beq_iff_eq, Ne.symm h2]
  · rw [decide_eq_false h1]
    simp [is_all_same_value, beq_iff_eq, Ne.symm h1]

theorem window4_five (a b c d e : Nat) :
    window4_all_same [a, b, c, d, e] =
      ((decide (a = b) && decide (b = c) && decide (c = d)) ||
       (decide (b = c) && decide (c = d) && decide (d = e))) := by
  by_cases h1 : a = b <;> by_cases h2 : b = c <;> by_cases h3 : c = d <;> by_cases h4 : d = e <;>
    simp_all [window4_all_same, beq_iff_eq] <;> omega

theorem window3_five (a b c d e : Nat) :
    window3_all_same [a, b, c, d, e] =
      ((decide (a = b) && decide (b = c)) || (decide (b = c) && decide (c = d)) ||
       (decide (c = d) && decide (d = e))) := by
  by_cases h1 : a = b <;> by_cases h2 : b = c <;> by_cases h3 : c = d <;> by_cases h4 : d = e <;>
    simp_all [window3_all_same, beq_iff_eq] <;> omega

theorem four_info_five (a b c d e : Nat) :
    four_info [a, b, c, d, e] =
      some (window4_all_same [a, b, c, d, e],
        if window4_all_same [a, b, c, d, e] then some c else none) := by
  by_cases h : window4_all_same [a, b, c, d, e] <;> simp [four_info, h]

theorem three_info_five (a b c d e : Nat) :
    three_info [a, b, c, d, e] =
      some (window3_all_same [a, b, c, d, e],
        if window3_all_same [a, b, c, d, e] then some c else none) := by
  by_cases h : window3_all_same [a, b, c, d, e] <;> simp [three_info, h]

theorem full_house_info_five (a b c d e : Nat) :
    full_house_info [a, b, c, d, e] =
      some (if is_all_same_value [a, b] && is_all_same_value [c, d, e] then
              (true, some e, some a)
            else if is_all_same_value [a, b, c] && is_all_same_value [d, e] then
              (true, some a, some e)
            else (false, none, none)) := by
  by_cases h1 : is_all_same_value [a, b] <;>
    by_cases h2 : is_all_same_value [c, d, e] <;>
    by_cases h3 : is_all_same_value [a, b, c] <;>
    by_cases h4 : is_all_same_value [d, e] <;>
    simp [full_house_info, full_house_branch2, slice?, h1, h2, h3, h4]

theorem two_pair_info_five (a b c d e : Nat) :
    two_pair_info [a, b, c, d, e] =
      some (if is_all_same_value [a, b] && is_all_same_value [c, d] then
              (true, some (max a c), some (min a c))
            else if is_all_same_value [a, b] && is_all_same_value [d, e] then
              (true, some (max a d), some (min a d))
            else if is_all_same_value [b, c] && is_all_same_value [d, e] then
              (true, some (max b d), some (min b d))
            else (false, none, none)) := by
  by_cases h1 : is_all_same_value [a, b] <;>
    by_cases h2 : is_all_same_value [c, d] <;>
    by_cases h3 : is_all_same_value [b, c] <;>
    by_cases h4 : is_all_same_value [d, e] <;>
    simp [two_pair_info, two_pair_branch2, two_pair_branch3, slice?, h1, h2, h3, h4]

set_option maxHeartbeats 4000000 in
theorem classify_first_match_core (a b c d e : Nat) (fl : Bool) :
    ∃ hand, classify_sorted_values [a, b, c, d, e] fl = some hand ∧
      category_index hand = (spec_predicates [a, b, c, d, e] fl).findIdx (fun x => x) := by
  simp only [classify_sorted_values, four_info_five, full_house_info_five, three_info_five,
    two_pair_info_five, Option.bind_eq_bind, Option.some_bind, List.get?,
    spec_predicates, is_full_house_b, is_two_pair_b, has_pair_b, high_card_of,
    List.take, List.drop, List.getD, List.getElem?_cons_succ, List.getElem?_cons_zero]
  by_cases hab : a = b <;> by_cases hbc : b = c <;> by_cases hcd : c = d <;>
    by_cases hde : d = e <;>
    simp_all [window4_five, window3_five, is_all_same_two, is_all_same_three,
      first_pair_value, List.findIdx_cons, category_index] <;>
    by_cases hS : is_straight_b [a, b, c, d, e] = true <;>
    by_cases hfl : fl = true <;> by_cases he : e = 14 <;>
    simp_all [List.findIdx_cons, category_index, Bool.cond_eq_ite, beq_iff_eq]

/-- C6: on any 5-card hand the classifier returns a category, and that
category sits at exactly the position of the first matching predicate in
the top-down resolution order RoyalFlush, StraightFlush, FourOfAKind,
FullHouse, Flush, Straight, ThreeOfAKind, TwoPair, Pair, HighCard
(RoyalFlush exactly when straight, flush and Ace-high). -/
theorem get_best_hand_first_match (h : List Card) (hlen : h.length = 5) :
    ∃ hand, get_best_hand h = some hand ∧
      category_index hand =
        (spec_predicates (sorted_values h) (is_flush_b (sorted_suits h))).findIdx
          (fun x => x) := by
  have hlen' : (sorted_values h).length = 5 := by
    rw [sorted_values, List.length_map, (sort_by_value_perm h).length_eq, hlen]
  obtain ⟨a, b, c, d, e, hv⟩ : ∃ a b c d e, sorted_values h = [a, b, c, d, e] := by
    rcases hsv : sorted_values h with _ | ⟨a, _ | ⟨b, _ | ⟨c, _ | ⟨d, _ | ⟨e, _ | ⟨f, t⟩⟩⟩⟩⟩⟩ <;>
      rw [hsv] at hlen' <;> simp at hlen'
    exact ⟨a, b, c, d, e, rfl⟩
  rw [get_best_hand_eq, hv]
  exact classify_first_match_core a b c d e (is_flush_b (sorted_suits h))

theorem get_best_hand_first_match_witness :
    (([⟨Suit.Hearts, 8⟩, ⟨Suit.Clubs, 3⟩, ⟨Suit.Hearts, 3⟩, ⟨Suit.Diamonds, 8⟩,
        ⟨Suit.Spades, 8⟩] : List Card).length = 5) ∧
    (∃ hand, get_best_hand
        [⟨Suit.Hearts, 8⟩, ⟨Suit.Clubs, 3⟩, ⟨Suit.Hearts, 3⟩, ⟨Suit.Diamonds, 8⟩,
          ⟨Suit.Spades, 8⟩] = some hand ∧
      category_index hand =
        (spec_predicates
            (sorted_values
              [⟨Suit.Hearts, 8⟩, ⟨Suit.Clubs, 3⟩, ⟨Suit.Hearts, 3⟩, ⟨Suit.Diamonds, 8⟩,
                ⟨Suit.Spades, 8⟩])
            (is_flush_b (sorted_suits
              [⟨Suit.Hearts, 8⟩, ⟨Suit.Clubs, 3⟩, ⟨Suit.Hearts, 3⟩, ⟨Suit.Diamonds, 8⟩,
                ⟨Suit.Spades, 8⟩]))).findIdx (fun x => x)) :=
  ⟨by decide, get_best_hand_first_match _ (by decide)⟩
